import Mathlib

/-!
Verification of the py-sandra schema / type-mapping / query-construction core.

Strings from the Python source are modelled as `List Char`.  Regular-expression
character classes (`\w`, `\s`, `\d`) and `str.lower`/`str.strip` are modelled on
their ASCII fragments, which covers every string the application feeds them
(CQL identifiers, CQL type expressions and CQL statements are ASCII).  Inputs
are assumed newline-free where the Python regexes treat a newline specially.
-/

namespace PySandra

/-- ASCII fragment of the regex class `\w` (letters, digits, underscore). -/
def isWordChar (c : Char) : Bool :=
  c.isAlpha || c.isDigit || c == '_'

/-- ASCII fragment of the regex class `\s` / Python `str.isspace`. -/
def isPySpace (c : Char) : Bool :=
  c == ' ' || c == '\t' || c == '\n' || c == '\r' || c.toNat == 11 || c.toNat == 12

/-- Python `str.strip()` (ASCII whitespace fragment). -/
def stripChars (s : List Char) : List Char :=
  ((s.dropWhile isPySpace).reverse.dropWhile isPySpace).reverse

/-- Python `str.split(sep)` for a single-character separator:
splits on every occurrence, keeping empty segments. -/
def splitChar (sep : Char) : List Char → List (List Char)
  | [] => [[]]
  | c :: cs =>
    match splitChar sep cs with
    | [] => [[]]
    | p :: ps => if c = sep then [] :: p :: ps else (c :: p) :: ps

/-- `parse_cql_type` from `src/utils/type_mapping.py`.

The source first runs `re.match(r'(\w+)<(.+)>$', cql_type)`: this matches iff
the string starts with a nonempty run of word characters immediately followed
by `<` and ends with `>`, with a nonempty, newline-free substring between
(`.` does not match a newline).  On a match, the parameter substring is split
on commas (each piece stripped) ONLY when it contains a comma and NO `<`
(the source comment: "Simple parameter parsing (doesn't handle deeply nested
types)"); otherwise the whole substring is a single parameter.  Without a
match the input itself is returned as a bare base type. -/
def parse_cql_type (s : List Char) : (List Char) × Option (List (List Char)) :=
  let base := s.takeWhile isWordChar
  match s.dropWhile isWordChar with
  | '<' :: tail =>
    if base ≠ [] ∧ tail.getLast? = some '>' ∧ 2 ≤ tail.length ∧ '\n' ∉ tail.dropLast then
      let params_str := tail.dropLast
      let params :=
        if ',' ∈ params_str ∧ '<' ∉ params_str then
          (splitChar ',' params_str).map stripChars
        else [params_str]
      (base, some params)
    else (s, none)
  | _ => (s, none)

/-- `ColumnInfo` from `src/database/schema.py`. -/
structure ColumnInfo where
  name : List Char
  cql_type : List Char
  is_partition_key : Bool := false
  is_clustering_key : Bool := false
  clustering_order : List Char := ("ASC".toList)
  position : Int := 0
deriving DecidableEq, Repr

/-- `ColumnInfo.is_primary_key`: partition or clustering key. -/
def ColumnInfo.is_primary_key (c : ColumnInfo) : Bool :=
  c.is_partition_key || c.is_clustering_key

/-- Comparison used for Python's stable `sorted(..., key=lambda c: c.position)`.
`List.insertionSort` with this relation is a stable sort by position, hence
extensionally equal to Python's stable sort. -/
def posLe (a b : ColumnInfo) : Prop :=
  a.position ≤ b.position

instance : DecidableRel posLe := fun a b => inferInstanceAs (Decidable (a.position ≤ b.position))

instance : IsTotal ColumnInfo posLe := ⟨fun a b => Int.le_total a.position b.position⟩

instance : IsTrans ColumnInfo posLe := ⟨fun _ _ _ => Int.le_trans⟩

/-- `TableSchema` from `src/database/schema.py`. -/
structure TableSchema where
  keyspace : List Char
  table_name : List Char
  columns : List ColumnInfo := []
deriving DecidableEq, Repr

/-- `TableSchema.partition_keys`: partition-key columns sorted by position. -/
def TableSchema.partition_keys (s : TableSchema) : List ColumnInfo :=
  List.insertionSort posLe (s.columns.filter (·.is_partition_key))

/-- `TableSchema.clustering_keys`: clustering-key columns sorted by position. -/
def TableSchema.clustering_keys (s : TableSchema) : List ColumnInfo :=
  List.insertionSort posLe (s.columns.filter (·.is_clustering_key))

/-- `TableSchema.primary_key_columns`: partition keys then clustering keys. -/
def TableSchema.primary_key_columns (s : TableSchema) : List ColumnInfo :=
  s.partition_keys ++ s.clustering_keys

/-- `TableSchema.regular_columns`: non-primary-key columns. -/
def TableSchema.regular_columns (s : TableSchema) : List ColumnInfo :=
  s.columns.filter (fun c => !c.is_primary_key)

/-- `TableSchema.all_columns_sorted`: primary keys first, then regular columns. -/
def TableSchema.all_columns_sorted (s : TableSchema) : List ColumnInfo :=
  s.primary_key_columns ++ s.regular_columns

/-- Python `", ".join`-style list joining (for `" AND ".join(where_clauses)`). -/
def joinSep (sep : List Char) : List (List Char) → List Char
  | [] => []
  | [x] => x
  | x :: y :: ys => x ++ sep ++ joinSep sep (y :: ys)

/-! ### Query construction (`src/app.py`) -/

/-- The SELECT construction of `_render_data_grid` (`src/app.py`).
`fp` is the filter mapping as an ordered association list: Python dicts
iterate in insertion order, and the filters are inserted in column order, so
`fp` carries both `filter_params.keys()` and `filter_params.values()` order.
Returns the statement text and the positional parameter tuple. -/
def build_select (V : Type) (ks tn : List Char) (fp : List ((List Char) × V)) :
    (List Char) × List V :=
  let query := ("SELECT * FROM ".toList) ++ ks ++ (".".toList) ++ tn
  if fp.isEmpty then (query, [])
  else
    let where_clauses := fp.map (fun kv => kv.1 ++ (" = %s".toList))
    (query ++ (" WHERE ".toList) ++ joinSep (" AND ".toList) where_clauses ++
      (" ALLOW FILTERING".toList),
     fp.map Prod.snd)

/-- `_delete_record` (`src/app.py`): the WHERE clause is built from
`schema.primary_key_columns`, taking each value with `row.get(col.name)` —
which yields `None` when the key is absent — and the statement is always
constructed and executed.  `row` models the Python dict's `.get`:
`none` means the column is absent from the row (or explicitly null). -/
def delete_record (V : Type) (schema : TableSchema) (row : List Char → Option V) :
    (List Char) × List (Option V) :=
  let where_parts := schema.primary_key_columns.map (fun c => c.name ++ (" = %s".toList))
  let where_values := schema.primary_key_columns.map (fun c => row c.name)
  (("DELETE FROM ".toList) ++ schema.keyspace ++ (".".toList) ++ schema.table_name ++
     (" WHERE ".toList) ++ joinSep (" AND ".toList) where_parts,
   where_values)

/-! ### Pagination state machine (`src/app.py`, `_render_data_grid`) -/

/-- The three pieces of session state driving pagination:
`paging_state` (current cursor, `none` = first page), `page_history`
(stack of previously active cursors) and `last_filter_hash` (the stringified
filter mapping from the previous render; `str` on a string-keyed,
string-valued dict is injective, so it is modelled by the filter mapping
itself).  `κ` is the opaque cursor type, `φ` the filter-hash type. -/
structure PageState (κ φ : Type) where
  paging_state : Option κ
  page_history : List (Option κ)
  last_filter_hash : Option φ
deriving DecidableEq, Repr

/-- The filter-change reset: `if st.session_state.last_filter_hash != current_filter_hash:
paging_state = None; page_history = []`. -/
def apply_filter_change {κ φ : Type} [DecidableEq φ] (s : PageState κ φ) (fp : φ) :
    PageState κ φ :=
  if s.last_filter_hash ≠ some fp then
    { s with last_filter_hash := some fp, paging_state := none, page_history := [] }
  else s

/-- The Next button: `page_history.append(paging_state); paging_state = rows.paging_state`.
`returned` is the cursor returned by the just-completed page execution. -/
def next_page {κ φ : Type} (s : PageState κ φ) (returned : Option κ) : PageState κ φ :=
  { s with page_history := s.page_history ++ [s.paging_state], paging_state := returned }

/-- The Previous button: `paging_state = page_history.pop()`.  The button is
rendered disabled when the history is empty, so the `none` branch is
unreachable in the application. -/
def prev_page {κ φ : Type} (s : PageState κ φ) : PageState κ φ :=
  match s.page_history.getLast? with
  | some c => { s with paging_state := c, page_history := s.page_history.dropLast }
  | none => s

/-! ### Column-metadata overlay (`src/config/settings.py`) -/

/-- Python dict update `d[k] = v`: replaces in place when the key is present,
otherwise appends (Python dicts preserve insertion order). -/
def dictSet {K V : Type} [DecidableEq K] (k : K) (v : V) : List (K × V) → List (K × V)
  | [] => [(k, v)]
  | (k', v') :: rest => if k' = k then (k, v) :: rest else (k', v') :: dictSet k v rest

/-- Python `d.get(k)` / `d[k]`. -/
def dictGet {K V : Type} [DecidableEq K] (k : K) : List (K × V) → Option V
  | [] => none
  | (k', v') :: rest => if k' = k then some v' else dictGet k rest

/-- `AppSettings.table_metadata`: `"keyspace.table" -> column -> key -> value`.
`V` is the opaque Python value type of the stored metadata. -/
def TableMetadata (V : Type) : Type :=
  List ((List Char) × List ((List Char) × List ((List Char) × V)))

/-- `ConfigManager.get_column_metadata`: `table_metadata.get(f"{ks}.{t}", {}).get(column, {})`. -/
def get_column_metadata {V : Type} (tm : TableMetadata V) (ks t col : List Char) :
    List ((List Char) × V) :=
  (dictGet col ((dictGet (ks ++ (".".toList) ++ t) tm).getD [])).getD []

/-- `ConfigManager.set_column_metadata`: creates the `f"{ks}.{t}"` entry and the
column entry when missing, then sets `[key] = value` and saves.  The on-disk
save is outside the modelled state. -/
def set_column_metadata {V : Type} (tm : TableMetadata V) (ks t col key : List Char) (v : V) :
    TableMetadata V :=
  let tkey := ks ++ (".".toList) ++ t
  let tmeta := (dictGet tkey tm).getD []
  let cmeta := (dictGet col tmeta).getD []
  dictSet tkey (dictSet col (dictSet key v cmeta) tmeta) tm

/-! ### Value conversion (`src/utils/type_mapping.py`, `convert_value`) -/

/-- Python runtime values as they flow through `convert_value`.  Values whose
internal structure the conversion logic never inspects (floats, decimals,
temporals, uuids, bytes) carry an opaque tag. -/
inductive PyVal where
  | vnone
  | vbool (b : Bool)
  | vint (n : Int)
  | vstr (s : List Char)
  | vuuid (u : Nat)
  | vfloat (tag : Nat)
  | vdecimal (tag : Nat)
  | vdatetime (tag : Nat)
  | vdate (tag : Nat)
  | vtime (tag : Nat)
  | vlist (xs : List PyVal)
  | vset (xs : List PyVal)
  | vdict (xs : List (PyVal × PyVal))
  | vbytes (tag : Nat)

mutual

/-- Structural equality on `PyVal` (Python `==` for the values in play). -/
def pyValBeq : PyVal → PyVal → Bool
  | .vnone, .vnone => true
  | .vbool a, .vbool b => a == b
  | .vint a, .vint b => a == b
  | .vstr a, .vstr b => a == b
  | .vuuid a, .vuuid b => a == b
  | .vfloat a, .vfloat b => a == b
  | .vdecimal a, .vdecimal b => a == b
  | .vdatetime a, .vdatetime b => a == b
  | .vdate a, .vdate b => a == b
  | .vtime a, .vtime b => a == b
  | .vlist a, .vlist b => pyValListBeq a b
  | .vset a, .vset b => pyValListBeq a b
  | .vdict a, .vdict b => pyValPairsBeq a b
  | .vbytes a, .vbytes b => a == b
  | _, _ => false

/-- Elementwise equality of `PyVal` lists. -/
def pyValListBeq : List PyVal → List PyVal → Bool
  | [], [] => true
  | x :: xs, y :: ys => pyValBeq x y && pyValListBeq xs ys
  | _, _ => false

/-- Pairwise equality of `PyVal` pair lists. -/
def pyValPairsBeq : List (PyVal × PyVal) → List (PyVal × PyVal) → Bool
  | [], [] => true
  | (k1, v1) :: xs, (k2, v2) :: ys => pyValBeq k1 k2 && pyValBeq v1 v2 && pyValPairsBeq xs ys
  | _, _ => false

end

/-- The early-return test of `convert_value`: `value is None or value == ''`
(`==` between a non-string and `''` is `False` for the value kinds in play). -/
def isEmptyInput : PyVal → Bool
  | .vnone => true
  | .vstr s => s.isEmpty
  | _ => false

/-- Python truthiness (`bool(value)`), used by `if not value` in the uuid
branch.  Opaque-tagged payloads are modelled as truthy: along the branch that
consults truthiness the value is never one of those kinds in the application
(it is a form string or a number). -/
def pyTruthy : PyVal → Bool
  | .vnone => false
  | .vbool b => b
  | .vint n => n ≠ 0
  | .vstr s => ¬ s.isEmpty
  | .vlist xs => ¬ xs.isEmpty
  | .vset xs => ¬ xs.isEmpty
  | .vdict xs => ¬ xs.isEmpty
  | _ => true

/-- `set(xs)` on a Python list: duplicates collapse, first occurrences kept. -/
def pyDedup : List PyVal → List PyVal
  | [] => []
  | x :: xs => if xs.any (pyValBeq x) then pyDedup xs else x :: pyDedup xs

/-- Library primitives `convert_value` delegates to, left abstract: `uuid.uuid4()`
(random), the numeric / temporal / uuid / json / hex parsers (which may raise,
modelled by `Except`), and `str(value)`.  The control flow of `convert_value`
is independent of these. -/
structure PyPrims where
  uuid4 : PyVal
  pyInt : PyVal → Except (List Char) PyVal
  pyFloat : PyVal → Except (List Char) PyVal
  pyDecimal : List Char → Except (List Char) PyVal
  pyStr : PyVal → List Char
  parseUUID : List Char → Except (List Char) PyVal
  fromisoDatetime : List Char → Except (List Char) PyVal
  fromisoDate : List Char → Except (List Char) PyVal
  fromisoTime : List Char → Except (List Char) PyVal
  jsonLoads : PyVal → Except (List Char) PyVal
  fromhex : List Char → Except (List Char) PyVal

/-- Python `str.lower()` (ASCII fragment, matching the form strings in play). -/
def strLower (s : List Char) : List Char :=
  s.map Char.toLower

/-- `value.replace(' ', '')` for the blob branch. -/
def stripSpaces (s : List Char) : List Char :=
  s.filter (fun c => ¬ c = ' ')

/-- `convert_value(value, cql_type)` from `src/utils/type_mapping.py`.
`Except.ok .vnone` is the "absent / omit the column" result of the early
return `if value is None or value == '': return None`; `Except.error` models a
raised conversion exception.  Branch order and conditions follow the source. -/
def convert_value (p : PyPrims) (value : PyVal) (cql_type : List Char) :
    Except (List Char) PyVal :=
  if isEmptyInput value then .ok .vnone
  else
    let base_type := (parse_cql_type cql_type).1
    if base_type ∈ [("int".toList), ("bigint".toList), ("smallint".toList),
        ("tinyint".toList), ("varint".toList)] then
      p.pyInt value
    else if base_type ∈ [("float".toList), ("double".toList)] then
      p.pyFloat value
    else if base_type = ("decimal".toList) then
      p.pyDecimal (p.pyStr value)
    else if base_type = ("boolean".toList) then
      match value with
      | .vbool b => .ok (.vbool b)
      | _ => .ok (.vbool (strLower (p.pyStr value) ∈
          [("true".toList), ("1".toList), ("yes".toList)]))
    else if base_type = ("uuid".toList) then
      match value with
      | .vuuid u => .ok (.vuuid u)
      | _ => if ¬ pyTruthy value then .ok p.uuid4 else p.parseUUID (p.pyStr value)
    else if base_type = ("timeuuid".toList) then
      match value with
      | .vuuid u => .ok (.vuuid u)
      | _ => p.parseUUID (p.pyStr value)
    else if base_type = ("timestamp".toList) then
      match value with
      | .vdatetime t => .ok (.vdatetime t)
      | _ => p.fromisoDatetime (p.pyStr value)
    else if base_type = ("date".toList) then
      match value with
      | .vdate t => .ok (.vdate t)
      | _ => p.fromisoDate (p.pyStr value)
    else if base_type = ("time".toList) then
      match value with
      | .vtime t => .ok (.vtime t)
      | _ => p.fromisoTime (p.pyStr value)
    else if base_type = ("list".toList) then
      match value with
      | .vlist xs => .ok (.vlist xs)
      | _ => p.jsonLoads value
    else if base_type = ("set".toList) then
      match value with
      | .vset xs => .ok (.vset xs)
      | .vlist xs => .ok (.vset (pyDedup xs))
      | _ =>
        match p.jsonLoads value with
        | .ok (.vlist xs) => .ok (.vset (pyDedup xs))
        | .ok _ => .error ("set() argument is not iterable".toList)
        | .error e => .error e
    else if base_type = ("map".toList) then
      match value with
      | .vdict xs => .ok (.vdict xs)
      | _ => p.jsonLoads value
    else if base_type = ("blob".toList) then
      match value with
      | .vbytes bs => .ok (.vbytes bs)
      | .vstr s => p.fromhex (stripSpaces s)
      | _ => .error ("replace on non-string".toList)
    else
      .ok (.vstr (p.pyStr value))

/-! ### CQL editor LIMIT rewriting (`src/app.py`, `_render_cql_editor`) -/

/-- Case-insensitive literal match: consumes `pat` (given lowercase) from the
head of `s`, modelling `re.IGNORECASE` on ASCII. -/
def dropCI (pat : List Char) (s : List Char) : Option (List Char) :=
  match pat, s with
  | [], rest => some rest
  | _ :: _, [] => none
  | pc :: ps, c :: cs => if c.toLower = pc then dropCI ps cs else none

/-- Matches the regex `LIMIT\s+\d+` (case-insensitive) at the head of `s`;
returns the suffix after the (greedy) match.  `\s+` is greedy and `\s` cannot
match a digit, so the match is: `limit`, then the maximal nonempty whitespace
run, then the maximal nonempty digit run. -/
def matchLimit (s : List Char) : Option (List Char) :=
  match dropCI ("limit".toList) s with
  | none => none
  | some r1 =>
    let sp := r1.takeWhile isPySpace
    let r2 := r1.dropWhile isPySpace
    let ds := r2.takeWhile Char.isDigit
    let r3 := r2.dropWhile Char.isDigit
    if ¬ sp.isEmpty ∧ ¬ ds.isEmpty then some r3 else none

/-- `re.search(r'\bLIMIT\s+(\d+)', q, re.IGNORECASE)` as a Boolean: scans for a
match position preceded by a non-word character (or the start), modelling the
`\b` boundary (the pattern starts with a word character). -/
def searchLimitAux (s : List Char) (prevWord : Bool) : Bool :=
  match s with
  | [] => false
  | c :: cs =>
    ((¬ prevWord) && (matchLimit (c :: cs)).isSome) || searchLimitAux cs (isWordChar c)

/-- Whether the statement already contains a `LIMIT n` clause. -/
def hasLimitClause (q : List Char) : Bool :=
  searchLimitAux q false

/-- `re.sub(r'\bLIMIT\s+\d+', 'LIMIT 10', q, flags=re.IGNORECASE)`: replaces
every boundary-anchored match, resuming after the matched text (whose last
character is a digit, hence a word character).  `fuel` bounds the recursion;
`fuel = s.length` suffices since every step consumes at least one character. -/
def subLimitAux (fuel : Nat) (s : List Char) (prevWord : Bool) : List Char :=
  match fuel, s with
  | 0, rest => rest
  | _ + 1, [] => []
  | fuel + 1, c :: cs =>
    if prevWord then c :: subLimitAux fuel cs (isWordChar c)
    else
      match matchLimit (c :: cs) with
      | some rest => ("LIMIT 10".toList) ++ subLimitAux fuel rest true
      | none => c :: subLimitAux fuel cs (isWordChar c)

/-- The Extended Mode limit handling of `_render_cql_editor`: if the statement
already has a `LIMIT` clause the user is warned that it is overridden and every
such clause is rewritten to `LIMIT 10`; otherwise ` LIMIT 10` is appended.
Returns the final statement and whether the override warning was issued. -/
def build_exploratory (q : List Char) : (List Char) × Bool :=
  if hasLimitClause q then (subLimitAux q.length q false, true)
  else (q ++ (" LIMIT 10".toList), false)

/-! ## Supporting lemmas -/

lemma takeWhile_word_append (l1 : List Char) (c : Char) (t : List Char)
    (h1 : ∀ x ∈ l1, isWordChar x = true) (hc : isWordChar c = false) :
    (l1 ++ c :: t).takeWhile isWordChar = l1 := by
  induction l1 with
  | nil => simp [List.takeWhile_cons, hc]
  | cons a as ih =>
    have ha : isWordChar a = true := h1 a (List.mem_cons_self a as)
    simp only [List.cons_append, List.takeWhile_cons, ha]
    simp [ih (fun x hx => h1 x (List.mem_cons_of_mem a hx))]

lemma dropWhile_word_append (l1 : List Char) (c : Char) (t : List Char)
    (h1 : ∀ x ∈ l1, isWordChar x = true) (hc : isWordChar c = false) :
    (l1 ++ c :: t).dropWhile isWordChar = c :: t := by
  induction l1 with
  | nil => simp [List.dropWhile_cons, hc]
  | cons a as ih =>
    have ha : isWordChar a = true := h1 a (List.mem_cons_self a as)
    simp only [List.cons_append, List.dropWhile_cons, ha]
    simpa using ih (fun x hx => h1 x (List.mem_cons_of_mem a hx))

/-- When the parameter substring of a matched generic contains a `<` (a nested
generic), `parse_cql_type` leaves it unsplit: the whole substring becomes the
single type parameter. -/
lemma parse_cql_type_nested (base ps : List Char)
    (hbase : base ≠ []) (hbw : ∀ x ∈ base, isWordChar x = true)
    (hps : ps ≠ []) (hlt : '<' ∈ ps) (hnl : '\n' ∉ ps) :
    parse_cql_type (base ++ '<' :: (ps ++ ['>'])) = (base, some [ps]) := by
  have hlt' : isWordChar '<' = false := by decide
  unfold parse_cql_type
  rw [takeWhile_word_append base '<' (ps ++ ['>']) hbw hlt',
      dropWhile_word_append base '<' (ps ++ ['>']) hbw hlt']
  have hlast : (ps ++ ['>']).getLast? = some '>' := List.getLast?_concat ps
  have hdl : (ps ++ ['>']).dropLast = ps := List.dropLast_concat
  have hlen : 2 ≤ (ps ++ ['>']).length := by
    have := List.length_pos.mpr hps
    simp only [List.length_append, List.length_cons, List.length_nil]
    omega
  simp only [hlast, hdl, hlen, hbase, hnl, ne_eq, not_false_iff, and_true, true_and,
    if_true, not_true, and_false, if_pos, if_neg]
  have hcond : ¬ (',' ∈ ps ∧ '<' ∉ ps) := by
    rintro ⟨-, habs⟩
    exact habs hlt
  simp [hcond, hbase, hnl]

/-! ## Claim theorems -/

/-- C1, counterexample: `parse_cql_type "map<text, list<int>>"` does NOT split the
parameter substring on top-level commas — it yields the single parameter
`"text, list<int>"`, not the two parameters `"text"` and `"list<int>"` the
claim requires. -/
theorem C1_counterexample_no_depth_tracking :
    parse_cql_type (("map<text, list<int>>").toList)
      = ((("map").toList), some [(("text, list<int>").toList)]) ∧
    (parse_cql_type (("map<text, list<int>>").toList)).2
      ≠ some [(("text").toList), (("list<int>").toList)] := by
  constructor
  · decide
  · decide

/-- C1, amended: `parse_cql_type` splits the enclosed substring on commas only
when it contains no `<` at all; whenever the parameter list contains a nested
generic the whole substring becomes one single parameter.  In particular
`"map<text, list<int>>"` yields base `"map"` with the one parameter
`"text, list<int>"` (which itself re-parses as a bare opaque base type with no
parameters), while the bracket-free `"map<text, int>"` does split into
`"text"` and `"int"`. -/
theorem C1_amended_nested_generic_unsplit (base ps : List Char)
    (hbase : base ≠ []) (hbw : ∀ x ∈ base, isWordChar x = true)
    (hps : ps ≠ []) (hlt : '<' ∈ ps) (hnl : '\n' ∉ ps) :
    parse_cql_type (base ++ '<' :: (ps ++ ['>'])) = (base, some [ps]) ∧
    parse_cql_type (("map<text, list<int>>").toList)
      = ((("map").toList), some [(("text, list<int>").toList)]) ∧
    parse_cql_type (("text, list<int>").toList) = ((("text, list<int>").toList), none) ∧
    parse_cql_type (("map<text, int>").toList)
      = ((("map").toList), some [(("text").toList), (("int").toList)]) := by
  refine ⟨parse_cql_type_nested base ps hbase hbw hps hlt hnl, by decide, by decide, by decide⟩

/-- C1, witness for the amended theorem at `base = "map"`, `ps = "text, list<int>"`. -/
theorem C1_amended_witness :
    ('<' ∈ (("text, list<int>").toList)) ∧
    parse_cql_type ((("map").toList) ++ '<' :: ((("text, list<int>").toList) ++ ['>']))
      = ((("map").toList), some [(("text, list<int>").toList)]) :=
  ⟨by decide,
   (C1_amended_nested_generic_unsplit (("map").toList) (("text, list<int>").toList)
      (by decide) (by decide) (by decide) (by decide) (by decide)).1⟩

/-- C2: a Next transition pushes the current cursor onto the history (length
grows by exactly one) and installs the cursor returned by the just-completed
execution; a subsequent Previous pops the stack and restores the whole state —
in particular the cursor active before the Next; and a filter change resets the
cursor to empty (first page) and the history to the empty stack. -/
theorem C2_pagination_lifecycle {κ φ : Type} [DecidableEq φ]
    (s : PageState κ φ) (returned : Option κ) (fp : φ)
    (hchange : s.last_filter_hash ≠ some fp) :
    (next_page s returned).page_history.length = s.page_history.length + 1 ∧
    (next_page s returned).paging_state = returned ∧
    prev_page (next_page s returned) = s ∧
    (prev_page (next_page s returned)).page_history.length + 1
      = (next_page s returned).page_history.length ∧
    (apply_filter_change s fp).paging_state = none ∧
    (apply_filter_change s fp).page_history = [] := by
  have hprev : prev_page (next_page s returned) = s := by
    simp only [prev_page, next_page, List.getLast?_concat, List.dropLast_concat]
  refine ⟨by simp [next_page], rfl, hprev, ?_, ?_, ?_⟩
  · rw [hprev]
    simp [next_page]
  · simp [apply_filter_change, hchange]
  · simp [apply_filter_change, hchange]

/-- C2, witness at a concrete pagination state over `Nat` cursors and hashes. -/
theorem C2_pagination_witness :
    (PageState.mk (some 5) [none, some 3] (some 1) : PageState Nat Nat).last_filter_hash
        ≠ some 2 ∧
    prev_page (next_page (PageState.mk (some 5) [none, some 3] (some 1)) (some 9))
      = (PageState.mk (some 5) [none, some 3] (some 1) : PageState Nat Nat) :=
  ⟨by decide,
   (C2_pagination_lifecycle (PageState.mk (some 5) [none, some 3] (some 1)) (some 9) 2
      (by decide)).2.2.1⟩

/-- Concrete schema of the C8 spec example: partition keys `a`, `b` at positions
0, 1, clustering key `c` at position 0 descending (plus a regular column),
listed out of order so the position sort is exercised. -/
def schemaC8 : TableSchema :=
  { keyspace := ("ks").toList, table_name := ("t").toList,
    columns :=
      [ { name := ("c").toList, cql_type := ("int").toList, is_clustering_key := true,
          clustering_order := ("DESC").toList, position := 0 },
        { name := ("b").toList, cql_type := ("int").toList, is_partition_key := true,
          position := 1 },
        { name := ("a").toList, cql_type := ("int").toList, is_partition_key := true,
          position := 0 },
        { name := ("d").toList, cql_type := ("text").toList } ] }

/-- C8: the derived primary-key order is the partition keys sorted by position
followed by the clustering keys sorted by position (each segment sorted and a
permutation of the corresponding key columns), and on the spec's example schema
it is exactly `[a, b, c]`. -/
theorem C8_primary_key_order (s : TableSchema) :
    s.primary_key_columns = s.partition_keys ++ s.clustering_keys ∧
    List.Sorted posLe s.partition_keys ∧
    List.Sorted posLe s.clustering_keys ∧
    List.Perm s.partition_keys (s.columns.filter (·.is_partition_key)) ∧
    List.Perm s.clustering_keys (s.columns.filter (·.is_clustering_key)) ∧
    schemaC8.primary_key_columns.map (·.name)
      = [("a").toList, ("b").toList, ("c").toList] :=
  ⟨rfl, List.sorted_insertionSort posLe _, List.sorted_insertionSort posLe _,
   List.perm_insertionSort posLe _, List.perm_insertionSort posLe _, by decide⟩

/-- Concrete schema for the C9 witness: two keys and two regular columns, no
column marked as both partition and clustering key. -/
def schemaC9 : TableSchema :=
  { keyspace := ("ks").toList, table_name := ("t").toList,
    columns :=
      [ { name := ("x").toList, cql_type := ("text").toList },
        { name := ("k").toList, cql_type := ("int").toList, is_partition_key := true,
          position := 0 },
        { name := ("y").toList, cql_type := ("text").toList },
        { name := ("o").toList, cql_type := ("int").toList, is_clustering_key := true,
          position := 0 } ] }

/-- C9: when no column is both a partition key and a clustering key,
`all_columns_sorted` is a permutation of the schema's column list in which
every primary-key column precedes every regular column. -/
theorem C9_all_columns_sorted_perm (s : TableSchema)
    (h : ∀ c ∈ s.columns, ¬ (c.is_partition_key = true ∧ c.is_clustering_key = true)) :
    List.Perm s.all_columns_sorted s.columns ∧
    s.all_columns_sorted = s.primary_key_columns ++ s.regular_columns ∧
    (∀ c ∈ s.primary_key_columns, c.is_primary_key = true) ∧
    (∀ c ∈ s.regular_columns, c.is_primary_key = false) := by
  have hmemP : ∀ c ∈ s.primary_key_columns, c.is_primary_key = true := by
    intro c hc
    rcases List.mem_append.mp hc with hc' | hc'
    · have := List.of_mem_filter ((List.mem_insertionSort posLe).mp hc')
      simp [ColumnInfo.is_primary_key, this]
    · have := List.of_mem_filter ((List.mem_insertionSort posLe).mp hc')
      simp [ColumnInfo.is_primary_key, this]
  have hmemR : ∀ c ∈ s.regular_columns, c.is_primary_key = false := by
    intro c hc
    have := List.of_mem_filter hc
    simpa using this
  refine ⟨?_, rfl, hmemP, hmemR⟩
  have e1 : List.Perm s.partition_keys (s.columns.filter (·.is_partition_key)) :=
    List.perm_insertionSort posLe _
  have e2 : List.Perm s.clustering_keys (s.columns.filter (·.is_clustering_key)) :=
    List.perm_insertionSort posLe _
  have hff1 : (s.columns.filter (fun c => !c.is_partition_key)).filter
      (·.is_clustering_key) = s.columns.filter (·.is_clustering_key) := by
    rw [List.filter_filter]
    refine List.filter_congr ?_
    intro c hc
    by_cases hP : c.is_partition_key = true
    · have : ¬ c.is_clustering_key = true := fun hC => h c hc ⟨hP, hC⟩
      simp [hP, this]
    · simp at hP
      simp [hP]
  have hff2 : (s.columns.filter (fun c => !c.is_partition_key)).filter
      (fun c => !c.is_clustering_key) = s.regular_columns := by
    rw [List.filter_filter]
    refine List.filter_congr ?_
    intro c _
    cases hP : c.is_partition_key <;> cases hC : c.is_clustering_key <;>
      simp [ColumnInfo.is_primary_key, hP, hC]
  have h3 : List.Perm
      (s.columns.filter (·.is_clustering_key) ++ s.regular_columns)
      (s.columns.filter (fun c => !c.is_partition_key)) := by
    have := List.filter_append_perm (·.is_clustering_key)
      (s.columns.filter (fun c => !c.is_partition_key))
    rwa [hff1, hff2] at this
  have h5 : List.Perm
      (s.columns.filter (·.is_partition_key) ++ s.columns.filter (fun c => !c.is_partition_key))
      s.columns :=
    List.filter_append_perm _ _
  have step1 : List.Perm s.all_columns_sorted
      (s.columns.filter (·.is_partition_key)
        ++ (s.columns.filter (·.is_clustering_key) ++ s.regular_columns)) := by
    show List.Perm ((s.partition_keys ++ s.clustering_keys) ++ s.regular_columns) _
    rw [List.append_assoc]
    exact List.Perm.append e1 (List.Perm.append e2 (List.Perm.refl _))
  exact step1.trans ((List.Perm.append_left _ h3).trans h5)

/-- C9, witness at a concrete schema with keys and regular columns interleaved. -/
theorem C9_witness :
    (∀ c ∈ schemaC9.columns,
      ¬ (c.is_partition_key = true ∧ c.is_clustering_key = true)) ∧
    List.Perm schemaC9.all_columns_sorted schemaC9.columns :=
  ⟨by decide, (C9_all_columns_sorted_perm schemaC9 (by decide)).1⟩

lemma dictGet_dictSet_self {K V : Type} [DecidableEq K] (k : K) (v : V) (d : List (K × V)) :
    dictGet k (dictSet k v d) = some v := by
  induction d with
  | nil => simp [dictGet, dictSet]
  | cons kv rest ih =>
    obtain ⟨k', v'⟩ := kv
    by_cases hk : k' = k
    · simp [dictGet, dictSet, hk]
    · simp [dictGet, dictSet, hk, ih]

lemma dictGet_dictSet_other {K V : Type} [DecidableEq K] (k k' : K) (v : V)
    (d : List (K × V)) (h : k' ≠ k) :
    dictGet k' (dictSet k v d) = dictGet k' d := by
  induction d with
  | nil => simp [dictGet, dictSet, Ne.symm h]
  | cons kv rest ih =>
    obtain ⟨k₀, v₀⟩ := kv
    by_cases hk : k₀ = k
    · subst hk
      simp [dictGet, dictSet, Ne.symm h]
    · simp only [dictSet, hk, if_false, dictGet]
      by_cases hk' : k₀ = k'
      · simp [hk']
      · simp [hk', ih]

/-- C10, counterexample: the overlay flattens `(keyspace, table)` to the string
`"keyspace.table"`, so the distinct triples `("a", "b.c", "col")` and
`("a.b", "c", "col")` collide: writing through the first changes what the
second reads, violating the claimed frame property. -/
theorem C10_counterexample_flattening_collision :
    get_column_metadata
        (set_column_metadata ([] : TableMetadata Nat)
          (("a").toList) (("b.c").toList) (("col").toList) (("k").toList) 7)
        (("a.b").toList) (("c").toList) (("col").toList)
      ≠ get_column_metadata ([] : TableMetadata Nat)
          (("a.b").toList) (("c").toList) (("col").toList) ∧
    ((("a.b").toList, (("c").toList), (("col").toList))
      ≠ ((("a").toList), (("b.c").toList), (("col").toList))) := by
  constructor
  · decide
  · decide

/-- C10, amended: `set_column_metadata` gives read-your-writes for the written
`(keyspace, table, column, key)`, leaves every other metadata key of that same
column unchanged, and leaves every other `(keyspace, table, column)` triple
unchanged PROVIDED the triples do not collide after flattening `(keyspace,
table)` to the string `"keyspace.table"` — triples that flatten to the same
string and name the same column are conflated by the store. -/
theorem C10_amended_set_column_metadata {V : Type} (tm : TableMetadata V)
    (ks t col key ks' t' col' : List Char) (v : V) (key' : List Char)
    (hother : ¬ (ks' ++ (".").toList ++ t' = ks ++ (".").toList ++ t ∧ col' = col))
    (hkey : key' ≠ key) :
    dictGet key (get_column_metadata (set_column_metadata tm ks t col key v) ks t col)
      = some v ∧
    dictGet key' (get_column_metadata (set_column_metadata tm ks t col key v) ks t col)
      = dictGet key' (get_column_metadata tm ks t col) ∧
    get_column_metadata (set_column_metadata tm ks t col key v) ks' t' col'
      = get_column_metadata tm ks' t' col' := by
  refine ⟨?_, ?_, ?_⟩
  · simp [get_column_metadata, set_column_metadata, dictGet_dictSet_self]
  · simp [get_column_metadata, set_column_metadata, dictGet_dictSet_self,
      dictGet_dictSet_other _ _ _ _ hkey]
  · by_cases hf : ks' ++ (".").toList ++ t' = ks ++ (".").toList ++ t
    · have hcol : col' ≠ col := fun hc => hother ⟨hf, hc⟩
      simp only [get_column_metadata, set_column_metadata]
      rw [hf, dictGet_dictSet_self]
      simp only [Option.getD_some]
      rw [dictGet_dictSet_other _ _ _ _ hcol]
    · simp only [get_column_metadata, set_column_metadata]
      rw [dictGet_dictSet_other _ _ _ _ hf]

/-- C10, witness: a write through `("a", "b", "colA", "hide")` at a concrete
store, read back at the same triple and observed not to disturb
`("a", "c", "colA")`. -/
theorem C10_amended_witness :
    (¬ ((("a").toList ++ (".").toList ++ (("c").toList)
          = (("a").toList) ++ (".").toList ++ (("b").toList)) ∧
        (("colA").toList) = (("colA").toList))) ∧
    dictGet (("hide").toList)
        (get_column_metadata
          (set_column_metadata ([] : TableMetadata Nat)
            (("a").toList) (("b").toList) (("colA").toList) (("hide").toList) 1)
          (("a").toList) (("b").toList) (("colA").toList))
      = some 1 :=
  ⟨by decide,
   (C10_amended_set_column_metadata ([] : TableMetadata Nat)
      (("a").toList) (("b").toList) (("colA").toList) (("hide").toList)
      (("a").toList) (("c").toList) (("colA").toList) 1 (("x").toList)
      (by decide) (by decide)).1⟩

/-- Concrete single-partition-key schema for the C5 counterexample. -/
def schemaC5 : TableSchema :=
  { keyspace := ("ks").toList, table_name := ("t").toList,
    columns :=
      [ { name := ("id").toList, cql_type := ("uuid").toList, is_partition_key := true },
        { name := ("val").toList, cql_type := ("text").toList } ] }

/-- C5, counterexample: deleting with a row that lacks the primary-key value
does NOT fail — `_delete_record` builds the full statement text and binds
`None` (absent) for the missing key. -/
theorem C5_counterexample_delete_builds_statement :
    (delete_record Nat schemaC5 (fun _ => none)).1
      = (("DELETE FROM ks.t WHERE id = %s").toList) ∧
    (delete_record Nat schemaC5 (fun _ => none)).1 ≠ [] ∧
    (delete_record Nat schemaC5 (fun _ => none)).2 = [none] := by
  refine ⟨by decide, by decide, by decide⟩

/-- C5, amended: on a row missing a key column's value, `delete_record` does not
fail with a MissingPrimaryKey condition; it constructs the complete DELETE
statement — one parameter per primary-key column, in key order — binding the
missing value as `None` (a null parameter). -/
theorem C5_amended_delete_missing_key {V : Type} (schema : TableSchema)
    (row : List Char → Option V) (c : ColumnInfo)
    (hc : c ∈ schema.primary_key_columns) (hmiss : row c.name = none) :
    (delete_record V schema row).2
      = schema.primary_key_columns.map (fun k => row k.name) ∧
    none ∈ (delete_record V schema row).2 ∧
    (delete_record V schema row).1 ≠ [] := by
  refine ⟨rfl, ?_, ?_⟩
  · have : row c.name ∈ (delete_record V schema row).2 :=
      List.mem_map_of_mem (fun k => row k.name) hc
    rwa [hmiss] at this
  · simp [delete_record]

/-- C5, witness at the concrete schema and the fully missing row. -/
theorem C5_amended_witness :
    ({ name := ("id").toList, cql_type := ("uuid").toList,
       is_partition_key := true : ColumnInfo } ∈ schemaC5.primary_key_columns) ∧
    none ∈ (delete_record Nat schemaC5 (fun _ => none)).2 :=
  ⟨by decide,
   (C5_amended_delete_missing_key schemaC5 (fun _ => none)
      { name := ("id").toList, cql_type := ("uuid").toList, is_partition_key := true }
      (by decide) rfl).2.1⟩

/-- C3: `convert_value` on EMPTY input for a uuid column returns the "absent"
result (`None`), never a freshly generated UUID: the early return
`if value is None or value == '': return None` fires before the uuid branch,
making `if not value: return uuid.uuid4()` (and the registry's "auto-generated
if empty" placeholder) unreachable for empty input.  A zero-but-truthy-free
value such as `0` shows the generation branch itself is alive. -/
theorem C3_empty_uuid_is_absent_not_generated (p : PyPrims)
    (h : ∃ u, p.uuid4 = PyVal.vuuid u) :
    convert_value p (PyVal.vstr []) (("uuid").toList) = Except.ok PyVal.vnone ∧
    convert_value p PyVal.vnone (("uuid").toList) = Except.ok PyVal.vnone ∧
    convert_value p (PyVal.vstr []) (("uuid").toList) ≠ Except.ok p.uuid4 ∧
    convert_value p (PyVal.vint 0) (("uuid").toList) = Except.ok p.uuid4 := by
  obtain ⟨u, hu⟩ := h
  refine ⟨rfl, rfl, ?_, rfl⟩
  rw [hu]
  intro hEq
  injection hEq with h2
  exact PyVal.noConfusion h2

/-- Dummy primitive pack for the C3 witness: `uuid4` is a concrete UUID value,
every parser rejects. -/
def primsC3 : PyPrims :=
  { uuid4 := .vuuid 0
    pyInt := fun _ => .error []
    pyFloat := fun _ => .error []
    pyDecimal := fun _ => .error []
    pyStr := fun _ => []
    parseUUID := fun _ => .error []
    fromisoDatetime := fun _ => .error []
    fromisoDate := fun _ => .error []
    fromisoTime := fun _ => .error []
    jsonLoads := fun _ => .error []
    fromhex := fun _ => .error [] }

/-- C3, witness at the concrete primitive pack. -/
theorem C3_witness :
    (∃ u, primsC3.uuid4 = PyVal.vuuid u) ∧
    convert_value primsC3 (PyVal.vstr []) (("uuid").toList) = Except.ok PyVal.vnone :=
  ⟨⟨0, rfl⟩, (C3_empty_uuid_is_absent_not_generated primsC3 ⟨0, rfl⟩).1⟩

lemma joinSep_count_sep_free (sep : List Char) (c : Char) (l : List (List Char))
    (hsep : sep.count c = 0) :
    (joinSep sep l).count c = (l.map (fun s => s.count c)).sum := by
  induction l with
  | nil => simp [joinSep]
  | cons x xs ih =>
    cases xs with
    | nil => simp [joinSep]
    | cons y ys =>
      simp only [joinSep, List.count_append, List.map_cons, List.sum_cons] at *
      rw [hsep, ih]
      omega

lemma sum_map_ones {α : Type} (l : List α) (f : α → Nat) (h : ∀ x ∈ l, f x = 1) :
    (l.map f).sum = l.length := by
  induction l with
  | nil => rfl
  | cons x xs ih =>
    simp only [List.map_cons, List.sum_cons, List.length_cons,
      h x (List.mem_cons_self x xs), ih (fun y hy => h y (List.mem_cons_of_mem x hy))]
    omega

lemma joinSep_part_of_mem (sep x : List Char) (l : List (List Char)) (hx : x ∈ l) :
    x <:+: joinSep sep l := by
  induction l with
  | nil => cases hx
  | cons y ys ih =>
    cases ys with
    | nil =>
      have hxy : x = y := by simpa using hx
      exact hxy ▸ ⟨[], [], by simp [joinSep]⟩
    | cons z zs =>
      rcases List.mem_cons.mp hx with rfl | hx'
      · exact ⟨[], sep ++ joinSep sep (z :: zs), by simp [joinSep]⟩
      · obtain ⟨s, t, hst⟩ := ih hx'
        exact ⟨y ++ sep ++ s, t, by simp only [joinSep, ← hst]; simp⟩

/-- C6: with a non-empty filter mapping the produced statement has exactly one
positional placeholder per filter (counting `%` characters, which occur only in
the placeholders given the `%`-free identifiers), contains the equality
predicate `col = %s` for every filter column, requests ALLOW FILTERING, and
binds the filter values positionally in iteration order; with no filters the
statement is the bare unconstrained SELECT with no WHERE clause. -/
theorem C6_build_select_filters {V : Type} (ks tn : List Char)
    (fp : List ((List Char) × V))
    (hks : '%' ∉ ks) (htn : '%' ∉ tn) (hkeys : ∀ kv ∈ fp, '%' ∉ kv.1)
    (hbase : ¬ (("WHERE").toList <:+:
      (("SELECT * FROM ").toList ++ ks ++ (".").toList ++ tn))) :
    (fp ≠ [] →
      ((build_select V ks tn fp).1.count '%' = fp.length ∧
       (∀ kv ∈ fp, (kv.1 ++ (" = %s").toList) <:+: (build_select V ks tn fp).1) ∧
       ((" ALLOW FILTERING").toList) <:+ (build_select V ks tn fp).1 ∧
       (build_select V ks tn fp).2 = fp.map Prod.snd)) ∧
    (build_select V ks tn []).1 = ("SELECT * FROM ").toList ++ ks ++ (".").toList ++ tn ∧
    (¬ (("WHERE").toList <:+: (build_select V ks tn []).1)) ∧
    (build_select V ks tn []).2 = [] := by
  refine ⟨?_, rfl, hbase, rfl⟩
  intro hne
  have hempty : fp.isEmpty = false := by
    cases fp with
    | nil => exact absurd rfl hne
    | cons a l => rfl
  have hstmt : (build_select V ks tn fp).1 =
      ((("SELECT * FROM ").toList ++ ks ++ (".").toList ++ tn) ++ (" WHERE ").toList
        ++ joinSep ((" AND ").toList) (fp.map (fun kv => kv.1 ++ (" = %s").toList)))
        ++ (" ALLOW FILTERING").toList := by
    simp only [build_select, hempty, Bool.false_eq_true, if_false]
  have hparams : (build_select V ks tn fp).2 = fp.map Prod.snd := by
    simp only [build_select, hempty, Bool.false_eq_true, if_false]
  refine ⟨?_, ?_, ?_, hparams⟩
  · rw [hstmt]
    have hclause : ∀ x ∈ fp.map (fun kv => kv.1 ++ (" = %s").toList),
        x.count '%' = 1 := by
      intro x hxm
      obtain ⟨kv, hkv, rfl⟩ := List.mem_map.mp hxm
      rw [List.count_append, List.count_eq_zero.mpr (hkeys kv hkv)]
      rfl
    simp only [List.count_append]
    rw [joinSep_count_sep_free _ _ _ (by rfl),
        sum_map_ones _ _ hclause, List.length_map,
        List.count_eq_zero.mpr hks, List.count_eq_zero.mpr htn]
    have c1 : List.count '%' (("SELECT * FROM ").toList) = 0 := rfl
    have c2 : List.count '%' ((".").toList) = 0 := rfl
    have c3 : List.count '%' ((" WHERE ").toList) = 0 := rfl
    have c4 : List.count '%' ((" ALLOW FILTERING").toList) = 0 := rfl
    omega
  · intro kv hkv
    have hmem : (kv.1 ++ (" = %s").toList)
        ∈ fp.map (fun kv => kv.1 ++ (" = %s").toList) :=
      List.mem_map_of_mem _ hkv
    obtain ⟨s, t, hst⟩ := joinSep_part_of_mem ((" AND ").toList) _ _ hmem
    rw [hstmt]
    exact ⟨(("SELECT * FROM ").toList ++ ks ++ (".").toList ++ tn ++ (" WHERE ").toList)
        ++ s, t ++ (" ALLOW FILTERING").toList, by simp only [← hst]; simp⟩
  · rw [hstmt]
    exact ⟨_, rfl⟩

/-- C6, witness at the spec's filter example `{status: "active"}` on `ks.t`. -/
theorem C6_witness :
    ('%' ∉ (("ks").toList)) ∧
    (build_select (List Char) (("ks").toList) (("t").toList)
        [((("status").toList), (("active").toList))]).1.count '%' = 1 ∧
    (build_select (List Char) (("ks").toList) (("t").toList)
        [((("status").toList), (("active").toList))]).2 = [("active").toList] :=
  ⟨by decide,
   ((C6_build_select_filters (("ks").toList) (("t").toList)
      [((("status").toList), (("active").toList))]
      (by decide) (by decide) (by decide) (by decide)).1 (by decide)).1,
   ((C6_build_select_filters (("ks").toList) (("t").toList)
      [((("status").toList), (("active").toList))]
      (by decide) (by decide) (by decide) (by decide)).1 (by decide)).2.2.2⟩

/-- C7: when the free-form statement has no LIMIT clause the result cap is
appended as ` LIMIT 10` with no override warning; when it already has one, the
override is reported — on the spec's example `SELECT * FROM t LIMIT 50` the
prior limit is rewritten to the cap (`LIMIT 10`).  (The application's result
cap is the constant 10 of Extended Mode.) -/
theorem C7_limit_rewrite (q : List Char) :
    (hasLimitClause q = false →
      build_exploratory q = (q ++ (" LIMIT 10").toList, false)) ∧
    (hasLimitClause q = true → (build_exploratory q).2 = true) ∧
    build_exploratory (("SELECT * FROM t LIMIT 50").toList)
      = ((("SELECT * FROM t LIMIT 10").toList), true) ∧
    build_exploratory (("SELECT * FROM t").toList)
      = ((("SELECT * FROM t LIMIT 10").toList), false) := by
  refine ⟨?_, ?_, by decide, by decide⟩
  · intro hno
    simp [build_exploratory, hno]
  · intro hyes
    simp [build_exploratory, hyes]

/-- C7, witness for the append branch at a concrete no-LIMIT statement. -/
theorem C7_witness :
    hasLimitClause (("SELECT * FROM users").toList) = false ∧
    build_exploratory (("SELECT * FROM users").toList)
      = ((("SELECT * FROM users").toList) ++ (" LIMIT 10").toList, false) :=
  ⟨by decide, (C7_limit_rewrite (("SELECT * FROM users").toList)).1 (by decide)⟩

end PySandra
